import Mathlib

/-!
# Checkpoints: block-hash anchors and verification-progress estimate

A shallow embedding of `src/checkpoints.cpp` (namespace `Checkpoints`).

Modelling conventions.

* `uint256` values are natural numbers; the compiled-in digests are written as
  the hexadecimal numerals of the source.
* `std::map<K, V>` is the list of its entries in ascending key order, built by
  `std::map::insert`; `find` is a lookup by key, `rbegin()` is the last entry
  and `BOOST_REVERSE_FOREACH` walks the reversed list.
* A `CBlockIndex*` is an `Option CBlockIndex`, `none` being `NULL`.
* The process state the functions read (the global `fEnabled`, the network
  identity behind `Params().NetworkID()` and the clock behind `time(NULL)`) is
  passed explicitly as an `Env`.
* `double` arithmetic is read in two ways. `GuessVerificationWork` and
  `GuessVerificationProgress` take it as exact rational arithmetic;
  `GuessVerificationWorkDouble` and `GuessVerificationProgressDouble` round
  every conversion and operation to binary64 as the source does. In both, a
  division whose divisor is zero yields `none`.
* `int64_t` values are unbounded integers: the subtractions of the source are
  taken in the range where they do not overflow.
-/

set_option autoImplicit false
set_option linter.dupNamespace false

namespace Checkpoints

/-! ## Data model -/

/-- A 256-bit unsigned integer, by its numeric value. -/
abbrev uint256 := Nat

/-- An ordered map `std::map<K, V>`: its entries in ascending key order. -/
abbrev StdMap (K V : Type) := List (K × V)

namespace StdMap

variable {K V : Type}

/-- Member `std::map::insert(value_type)`: the entry is placed at its position
in key order; when the key is already present the map is left unchanged. -/
def insert [LT K] [DecidableRel (fun a b : K => a < b)] :
    StdMap K V → K × V → StdMap K V
  | [], e => [e]
  | e' :: rest, e =>
    if e.1 < e'.1 then e :: e' :: rest
    else if e'.1 < e.1 then e' :: insert rest e
    else e' :: rest

/-- Construction from a sequence of pairs (`boost::assign::map_list_of`
converted to a `std::map`): the pairs are inserted one by one, in order. -/
def ofList [LT K] [DecidableRel (fun a b : K => a < b)] (l : List (K × V)) : StdMap K V :=
  l.foldl insert []

/-- Member `std::map::find(key)`: the value stored under `key`, `none` standing
for the `end()` iterator. -/
def find [DecidableEq K] : StdMap K V → K → Option V
  | [], _ => none
  | e :: rest, k => if e.1 = k then some e.2 else find rest k

/-- Member `rbegin()`: the entry with the greatest key; `none` when the map is
empty (dereferencing `rbegin()` is then undefined). -/
def rbegin (m : StdMap K V) : Option (K × V) :=
  m.getLast?

end StdMap

/-- `typedef std::map<int, uint256> MapCheckpoints`. -/
abbrev MapCheckpoints := StdMap Int uint256

/-- `SIGCHECK_VERIFICATION_FACTOR = 5.0`. -/
def SIGCHECK_VERIFICATION_FACTOR : ℚ := 5

/-- `struct CCheckpointData`; the table pointer is the table itself. -/
structure CCheckpointData where
  mapCheckpoints : MapCheckpoints
  nTimeLastCheckpoint : Int
  nTransactionsLastCheckpoint : Int
  fTransactionsPerDay : ℚ

/-- Modelled from the spec: the network identity `CChainParams::Network`
returned by `Params().NetworkID()` is declared outside this file. The spec
names main, test and regression-test; `OTHER` stands for any further
(unrecognized) identity the enumeration may hold. -/
inductive Network where
  | MAIN
  | TESTNET
  | REGTEST
  | OTHER (id : Nat)
  deriving DecidableEq, Repr

/-- Modelled from the spec: the block reference `CBlockIndex` is declared
outside this file; the estimator reads `nChainTx` (cumulative transaction
count through this block) and `nTime` (block time, unix seconds). -/
structure CBlockIndex where
  nChainTx : Int
  nTime : Int
  deriving DecidableEq, Repr

/-- A `CBlockIndex*`; `none` is `NULL`. -/
abbrev CBlockIndexPtr := Option CBlockIndex

/-- The process state read by the queries: the global `fEnabled`, the network
identity `Params().NetworkID()` and the value of `time(NULL)`. -/
structure Env where
  fEnabled : Bool
  networkID : Network
  nNow : Int

/-! ## Compiled-in tables -/

/-- Main network table `mapCheckpoints`. -/
def mapCheckpoints : MapCheckpoints :=
  StdMap.ofList
    [ (      0, 0x00000c257b93a36e9a4318a64398d661866341331a984e2b486414fc5bb16ccd),
      (  41056, 0x000000001f12305bf0443551030d9f18c5d7b1a6b7eb8e899b1b26fc45924ade),
      (  81847, 0x00000000c164428877cd4d46e2facc881b6b0a803e44a02c1f3b279ae7d58c32),
      ( 308484, 0x000000016bd2ef95ae4a456c6114cd7736a4219de5b75b2139c840650144e143),
      ( 380481, 0x00000003064d1fdbe86f35bfce8c54f88a80ef773e820ca86ae820ed6c4defcc),
      ( 404998, 0x000000004a815d04f437dd83d84866a8a07865f5b47030668a8096df0615361f),
      ( 411932, 0x000000001f3c7ec7251ebc1670fb3f772b42e25356fa02468c02c89199617cd5),
      ( 423094, 0x0000000007001e561197a35026b7c9bbaf0b9a1c918a41d9e7d638e44459f116),
      ( 443157, 0x000000000b103e119485969439ab2203b5578be3fb8b3aab512ebebaca1bce81),
      ( 458433, 0x000000000318a428560180bb8166321a6b20ae78fc0a9b3c560d30476859b2b5),
      ( 464836, 0x00000000079e9a16f173bf610f2ceddc5659aa7e9df2366dea01e346c37f9692),
      ( 467282, 0x0000000004a17401913be0aa29af7ace3335d58a846938d4fee0c749e4828d1d),
      ( 473033, 0x000000000515c71eb7c3de0574d5f6c632d8de9053c626aba22ae3a9eff67e9c),
      ( 538178, 0x000000000a13e56dc5d7962d4e3a852ff24055aa15096085d8173faf95172f4d),
      ( 621138, 0x0000000016a7d31cabbc6257c53d3b58f82f1a897d79066dabcb5ce5b031f8ca),
      ( 714001, 0x000000001d2b41db149991d5e01aee448042de6ac94e12c5ae6299e4fb129f5a),
      ( 797370, 0x000000001b24a2f70ce1e50c19d5f3dd77fbd6e0f0a3eb61b95ceaafb8435636),
      ( 895901, 0x0000000016db7c64fb4bb6475fbb06dca656d32b7864a2d045612660106d411c),
      ( 972235, 0x000000004e92bead093b946351cd2e7125d23e36042687497561db00a77b6ae8) ]

/-- Main network profile `data`. -/
def data : CCheckpointData :=
  { mapCheckpoints := mapCheckpoints
    nTimeLastCheckpoint := 1402075019
    nTransactionsLastCheckpoint := 1371986
    fTransactionsPerDay := 2880 }

/-- Test network table `mapCheckpointsTestnet`. -/
def mapCheckpointsTestnet : MapCheckpoints :=
  StdMap.ofList
    [ ( 0, 0x00000e5e37c42d6b67d0934399adfb0fa48b59138abb1a8842c88f4ca3d4ec96) ]

/-- Test network profile `dataTestnet`. -/
def dataTestnet : CCheckpointData :=
  { mapCheckpoints := mapCheckpointsTestnet
    nTimeLastCheckpoint := 1373481000
    nTransactionsLastCheckpoint := 0
    fTransactionsPerDay := 2880 }

/-- Regression-test table `mapCheckpointsRegtest`. -/
def mapCheckpointsRegtest : MapCheckpoints :=
  StdMap.ofList
    [ ( 0, 0x0f9188f13cb7b2c71f2a335e3a4fc328bf5beb436012afca590b1a11466e2206) ]

/-- Regression-test profile `dataRegtest`. -/
def dataRegtest : CCheckpointData :=
  { mapCheckpoints := mapCheckpointsRegtest
    nTimeLastCheckpoint := 0
    nTransactionsLastCheckpoint := 0
    fTransactionsPerDay := 0 }

/-! ## Operations -/

/-- Selector `Checkpoints()`: the profile of the active network. -/
def Checkpoints (env : Env) : CCheckpointData :=
  if env.networkID = Network.TESTNET then dataTestnet
  else if env.networkID = Network.MAIN then data
  else dataRegtest

/-- Function `CheckBlock(nHeight, hash)`. -/
def CheckBlock (env : Env) (nHeight : Int) (hash : uint256) : Bool :=
  if !env.fEnabled then true
  else
    let checkpoints := (Checkpoints env).mapCheckpoints
    match StdMap.find checkpoints nHeight with
    | none => true
    | some stored => decide (hash = stored)

/-- The two work amounts `(fWorkBefore, fWorkAfter)` that
`GuessVerificationProgress` computes for a non-null block reference. -/
def GuessVerificationWork (env : Env) (pindex : CBlockIndex) (fSigchecks : Bool) : ℚ × ℚ :=
  let nNow : Int := env.nNow
  let fSigcheckVerificationFactor : ℚ :=
    if fSigchecks then SIGCHECK_VERIFICATION_FACTOR else 1
  let data := Checkpoints env
  if pindex.nChainTx ≤ data.nTransactionsLastCheckpoint then
    let nCheapBefore : ℚ := (pindex.nChainTx : ℚ)
    let nCheapAfter : ℚ := ((data.nTransactionsLastCheckpoint - pindex.nChainTx : Int) : ℚ)
    let nExpensiveAfter : ℚ :=
      ((nNow - data.nTimeLastCheckpoint : Int) : ℚ) / 86400 * data.fTransactionsPerDay
    (nCheapBefore, nCheapAfter + nExpensiveAfter * fSigcheckVerificationFactor)
  else
    let nCheapBefore : ℚ := (data.nTransactionsLastCheckpoint : ℚ)
    let nExpensiveBefore : ℚ := ((pindex.nChainTx - data.nTransactionsLastCheckpoint : Int) : ℚ)
    let nExpensiveAfter : ℚ :=
      ((nNow - pindex.nTime : Int) : ℚ) / 86400 * data.fTransactionsPerDay
    (nCheapBefore + nExpensiveBefore * fSigcheckVerificationFactor,
      nExpensiveAfter * fSigcheckVerificationFactor)

/-- Division of two `double` values read as exact rationals: `none` when the
divisor is zero (the source then produces NaN or an infinity, no number). -/
def fdiv (a b : ℚ) : Option ℚ :=
  if b = 0 then none else some (a / b)

/-- Function `GuessVerificationProgress(pindex, fSigchecks)`. -/
def GuessVerificationProgress (env : Env) (pindex : CBlockIndexPtr) (fSigchecks : Bool) :
    Option ℚ :=
  match pindex with
  | none => some 0
  | some blk =>
    let w := GuessVerificationWork env blk fSigchecks
    fdiv w.1 (w.1 + w.2)

/-- Function `GetTotalBlocksEstimate()`; `none` when `rbegin()` of an empty
table would be dereferenced. -/
def GetTotalBlocksEstimate (env : Env) : Option Int :=
  if !env.fEnabled then some 0
  else
    let checkpoints := (Checkpoints env).mapCheckpoints
    (StdMap.rbegin checkpoints).map Prod.fst

/-- The loop of `GetLastCheckpoint` over the entries still to visit, highest
height first: the first entry whose hash is a key of the index ends it. -/
def GetLastCheckpoint.scan (mapBlockIndex : StdMap uint256 CBlockIndexPtr) :
    List (Int × uint256) → CBlockIndexPtr
  | [] => none
  | i :: rest =>
    match StdMap.find mapBlockIndex i.2 with
    | some t => t
    | none => GetLastCheckpoint.scan mapBlockIndex rest

/-- Function `GetLastCheckpoint(mapBlockIndex)`. -/
def GetLastCheckpoint (env : Env) (mapBlockIndex : StdMap uint256 CBlockIndexPtr) :
    CBlockIndexPtr :=
  if !env.fEnabled then none
  else
    let checkpoints := (Checkpoints env).mapCheckpoints
    GetLastCheckpoint.scan mapBlockIndex checkpoints.reverse

/-! ## The spec's progress formulas -/

/-- The spec's `factor`: 5 with sigcheck weighting, 1 without. -/
def specFactor (useSigcheckWeighting : Bool) : ℚ :=
  if useSigcheckWeighting then 5 else 1

/-- The spec's Case A progress for metadata `(T, tcp, rate)`, count `n` and
clock `now`: `n / (n + (T - n) + ((now - tcp) / 86400) * rate * factor)`. -/
def specProgressCaseA (T tcp : Int) (rate : ℚ) (n now : Int) (useSigcheckWeighting : Bool) :
    Option ℚ :=
  fdiv (n : ℚ)
    ((n : ℚ) + ((T : ℚ) - (n : ℚ)) +
      (((now : ℚ) - (tcp : ℚ)) / 86400) * rate * specFactor useSigcheckWeighting)

/-- The spec's Case B progress for metadata `(T, rate)`, count `n`, block time
`t` and clock `now`: `wb / (wb + wa)` with `wb = T + (n - T) * factor` and
`wa = ((now - t) / 86400) * rate * factor`. -/
def specProgressCaseB (T : Int) (rate : ℚ) (n t now : Int) (useSigcheckWeighting : Bool) :
    Option ℚ :=
  let wb : ℚ := (T : ℚ) + ((n : ℚ) - (T : ℚ)) * specFactor useSigcheckWeighting
  let wa : ℚ := (((now : ℚ) - (t : ℚ)) / 86400) * rate * specFactor useSigcheckWeighting
  fdiv wb (wb + wa)

/-! ## The progress estimate in binary64

The same function with every conversion and operation rounded as the source's
`double` arithmetic rounds it (IEEE 754 binary64, round to nearest, ties to
even). A finite `double` is the rational it denotes. -/

/-- The integer nearest to `a / b` (for `0 < b`), the even one on a tie. -/
def roundHalfEven (a b : Nat) : Nat :=
  let q := a / b
  let r := a % b
  if 2 * r < b then q
  else if b < 2 * r then q + 1
  else if q % 2 = 0 then q else q + 1

/-- Halving loop of `floorLog2`: the number of halvings that bring `n` below 2,
with at most `fuel` rounds. -/
def floorLog2.loop : Nat → Nat → Nat
  | 0, _ => 0
  | fuel + 1, n => if n < 2 then 0 else floorLog2.loop fuel (n / 2) + 1

/-- The position of the highest set bit of `n`: the `e` with
`2 ^ e ≤ n < 2 ^ (e + 1)` for `0 < n`. -/
def floorLog2 (n : Nat) : Nat :=
  floorLog2.loop n n

/-- The exponent `e` with `2 ^ e ≤ a / b < 2 ^ (e + 1)` (for `0 < a`, `0 < b`):
the difference of the bit positions, lowered by one when `a / b` lies below
that power of two. -/
def binade (a b : Nat) : Int :=
  let e0 : Int := (floorLog2 a : Int) - (floorLog2 b : Int)
  if b * 2 ^ e0.toNat ≤ a * 2 ^ (-e0).toNat then e0 else e0 - 1

/-- The binary64 value nearest to `q`, ties to even: `q` is rounded to a
multiple of `2 ^ p`, where `p` leaves 53 significant bits (`p = binade - 52`)
and is at least `-1074` in the subnormal range. Values beyond the binary64
range (`2 ^ 1024` and above) are not reached from 64-bit integer operands and
are not given a special result. -/
def roundDouble (q : ℚ) : ℚ :=
  let a : Nat := q.num.natAbs
  let b : Nat := q.den
  if a = 0 then 0
  else
    let p : Int := max (binade a b - 52) (-1074)
    let m : Nat := roundHalfEven (a * 2 ^ (-p).toNat) (b * 2 ^ p.toNat)
    let v : ℚ := ((m * 2 ^ p.toNat : Nat) : ℚ) / ((2 ^ (-p).toNat : Nat) : ℚ)
    if q.num < 0 then -v else v

/-- The two work amounts `(fWorkBefore, fWorkAfter)` as the source computes
them in `double`: each integer-to-`double` conversion and each `/`, `*`, `+`
is rounded. -/
def GuessVerificationWorkDouble (env : Env) (pindex : CBlockIndex) (fSigchecks : Bool) :
    ℚ × ℚ :=
  let nNow : Int := env.nNow
  let fSigcheckVerificationFactor : ℚ :=
    if fSigchecks then SIGCHECK_VERIFICATION_FACTOR else 1
  let data := Checkpoints env
  if pindex.nChainTx ≤ data.nTransactionsLastCheckpoint then
    let nCheapBefore : ℚ := roundDouble (pindex.nChainTx : ℚ)
    let nCheapAfter : ℚ :=
      roundDouble ((data.nTransactionsLastCheckpoint - pindex.nChainTx : Int) : ℚ)
    let nExpensiveAfter : ℚ :=
      roundDouble
        (roundDouble (roundDouble ((nNow - data.nTimeLastCheckpoint : Int) : ℚ) / 86400) *
          data.fTransactionsPerDay)
    (nCheapBefore,
      roundDouble (nCheapAfter + roundDouble (nExpensiveAfter * fSigcheckVerificationFactor)))
  else
    let nCheapBefore : ℚ := roundDouble (data.nTransactionsLastCheckpoint : ℚ)
    let nExpensiveBefore : ℚ :=
      roundDouble ((pindex.nChainTx - data.nTransactionsLastCheckpoint : Int) : ℚ)
    let nExpensiveAfter : ℚ :=
      roundDouble
        (roundDouble (roundDouble ((nNow - pindex.nTime : Int) : ℚ) / 86400) *
          data.fTransactionsPerDay)
    (roundDouble (nCheapBefore + roundDouble (nExpensiveBefore * fSigcheckVerificationFactor)),
      roundDouble (nExpensiveAfter * fSigcheckVerificationFactor))

/-- Division of two `double` values: the rounded quotient, `none` when the
divisor is zero (NaN or an infinity in the source). -/
def fdivDouble (a b : ℚ) : Option ℚ :=
  if b = 0 then none else some (roundDouble (a / b))

/-- Function `GuessVerificationProgress(pindex, fSigchecks)` in `double`
arithmetic. -/
def GuessVerificationProgressDouble (env : Env) (pindex : CBlockIndexPtr) (fSigchecks : Bool) :
    Option ℚ :=
  match pindex with
  | none => some 0
  | some blk =>
    let w := GuessVerificationWorkDouble env blk fSigchecks
    fdivDouble w.1 (roundDouble (w.1 + w.2))

/-! ## Ordered-map lemmas -/

/-- A key without an entry is not found. -/
theorem StdMap.find_eq_none_of_not_key {V : Type} (m : StdMap Int V) (k : Int)
    (hk : ∀ v, (k, v) ∉ m) : StdMap.find m k = none := by
  induction m with
  | nil => rfl
  | cons e rest ih =>
    have hne : e.1 ≠ k := by
      intro he
      exact hk e.2 (by rw [← he]; exact List.mem_cons_self _ _)
    have hrest : ∀ v, (k, v) ∉ rest := fun v hv => hk v (List.mem_cons_of_mem _ hv)
    simp [StdMap.find, hne, ih hrest]

/-- A key that is found has an entry with the value found. -/
theorem StdMap.mem_of_find_eq_some {V : Type} (m : StdMap Int V) (k : Int) (v : V)
    (hf : StdMap.find m k = some v) : (k, v) ∈ m := by
  induction m with
  | nil => simp [StdMap.find] at hf
  | cons e rest ih =>
    by_cases he : e.1 = k
    · simp [StdMap.find, he] at hf
      have : e = (k, v) := Prod.ext he hf
      rw [this]; exact List.mem_cons_self _ _
    · simp [StdMap.find, he] at hf
      exact List.mem_cons_of_mem _ (ih hf)

/-- In a map whose keys strictly ascend, an entry is found under its key. -/
theorem StdMap.find_of_mem {V : Type} (m : StdMap Int V)
    (hs : m.Pairwise (fun a b => a.1 < b.1)) (k : Int) (v : V) (hm : (k, v) ∈ m) :
    StdMap.find m k = some v := by
  induction m with
  | nil => simp at hm
  | cons e rest ih =>
    rw [List.pairwise_cons] at hs
    rcases List.mem_cons.mp hm with heq | hrest
    · subst heq
      simp [StdMap.find]
    · have hlt : e.1 < k := hs.1 (k, v) hrest
      have hne : e.1 ≠ k := ne_of_lt hlt
      simp [StdMap.find, hne, ih hs.2 hrest]

/-- The last entry of a non-empty ascending map carries the greatest key. -/
theorem StdMap.rbegin_greatest {V : Type} (m : StdMap Int V)
    (hs : m.Pairwise (fun a b => a.1 < b.1)) (e : Int × V)
    (hl : StdMap.rbegin m = some e) : e ∈ m ∧ ∀ e' ∈ m, e'.1 ≤ e.1 := by
  unfold StdMap.rbegin at hl
  have hmem : e ∈ m := List.mem_of_getLast?_eq_some hl
  refine ⟨hmem, ?_⟩
  obtain ⟨front, hfront⟩ : ∃ front, m = front ++ [e] := by
    rcases List.getLast?_eq_some_iff.mp hl with ⟨ys, hys⟩
    exact ⟨ys, hys⟩
  subst hfront
  intro e' he'
  rcases List.mem_append.mp he' with hf | hlast
  · have := (List.pairwise_append.mp hs).2.2 e' hf e (List.mem_singleton_self e)
    exact le_of_lt this
  · rw [List.mem_singleton.mp hlast]

/-- In a map whose keys strictly ascend, a key has at most one value. -/
theorem StdMap.value_unique {V : Type} (m : StdMap Int V)
    (hs : m.Pairwise (fun a b => a.1 < b.1)) (k : Int) (v v' : V)
    (hm : (k, v) ∈ m) (hm' : (k, v') ∈ m) : v = v' := by
  have h1 := StdMap.find_of_mem m hs k v hm
  have h2 := StdMap.find_of_mem m hs k v' hm'
  rw [h1] at h2
  exact Option.some.inj h2

/-- Every compiled-in table lists its heights in strictly ascending order. -/
theorem Checkpoints_ascending (env : Env) :
    ((Checkpoints env).mapCheckpoints).Pairwise (fun a b => a.1 < b.1) := by
  unfold Checkpoints
  split_ifs <;> decide

/-- No compiled-in table is empty. -/
theorem Checkpoints_rbegin_isSome (env : Env) :
    (StdMap.rbegin (Checkpoints env).mapCheckpoints).isSome = true := by
  unfold Checkpoints
  split_ifs <;> decide

/-- The scan returns `NULL` when no listed hash is a key of the index. -/
theorem GetLastCheckpoint.scan_none (idx : StdMap uint256 CBlockIndexPtr)
    (l : List (Int × uint256)) (hno : ∀ e ∈ l, StdMap.find idx e.2 = none) :
    GetLastCheckpoint.scan idx l = none := by
  induction l with
  | nil => rfl
  | cons i rest ih =>
    have hi : StdMap.find idx i.2 = none := hno i (List.mem_cons_self _ _)
    have hrest : ∀ e ∈ rest, StdMap.find idx e.2 = none :=
      fun e he => hno e (List.mem_cons_of_mem _ he)
    simp [GetLastCheckpoint.scan, hi, ih hrest]

/-- Over entries listed by strictly descending height, the scan returns the
index value of the highest entry whose hash is a key of the index. -/
theorem GetLastCheckpoint.scan_highest (idx : StdMap uint256 CBlockIndexPtr)
    (l : List (Int × uint256)) (hs : l.Pairwise (fun a b => b.1 < a.1))
    (h : Int) (d : uint256) (t : CBlockIndexPtr) (hm : (h, d) ∈ l)
    (hf : StdMap.find idx d = some t)
    (hmax : ∀ e ∈ l, (StdMap.find idx e.2).isSome = true → e.1 ≤ h) :
    GetLastCheckpoint.scan idx l = t := by
  induction l with
  | nil => simp at hm
  | cons i rest ih =>
    rw [List.pairwise_cons] at hs
    have hmax' : ∀ e ∈ rest, (StdMap.find idx e.2).isSome = true → e.1 ≤ h :=
      fun e he => hmax e (List.mem_cons_of_mem _ he)
    rcases List.mem_cons.mp hm with heq | hrest
    · subst heq
      simp [GetLastCheckpoint.scan, hf]
    · cases hfi : StdMap.find idx i.2 with
      | none => simp [GetLastCheckpoint.scan, hfi, ih hs.2 hrest hmax']
      | some t' =>
        have hle : i.1 ≤ h := hmax i (List.mem_cons_self _ _) (by simp [hfi])
        have hlt : h < i.1 := hs.1 (h, d) hrest
        omega

/-! ## Work-amount lemmas -/

/-- The sigcheck weighting factor is positive. -/
theorem sigcheck_factor_pos (fSigchecks : Bool) :
    (0 : ℚ) < (if fSigchecks then SIGCHECK_VERIFICATION_FACTOR else 1) := by
  cases fSigchecks <;> norm_num [SIGCHECK_VERIFICATION_FACTOR]

/-- No profile has a negative daily transaction rate. -/
theorem Checkpoints_rate_nonneg (env : Env) : 0 ≤ (Checkpoints env).fTransactionsPerDay := by
  unfold Checkpoints
  split_ifs <;> norm_num [data, dataTestnet, dataRegtest]

/-- No profile has a negative transaction count at its last checkpoint. -/
theorem Checkpoints_txcount_nonneg (env : Env) :
    0 ≤ (Checkpoints env).nTransactionsLastCheckpoint := by
  unfold Checkpoints
  split_ifs <;> norm_num [data, dataTestnet, dataRegtest]

/-- The work amounts of a block at or before the last checkpoint. -/
theorem GuessVerificationWork_before (env : Env) (blk : CBlockIndex) (fSigchecks : Bool)
    (hle : blk.nChainTx ≤ (Checkpoints env).nTransactionsLastCheckpoint) :
    GuessVerificationWork env blk fSigchecks =
      ((blk.nChainTx : ℚ),
        (((Checkpoints env).nTransactionsLastCheckpoint : ℚ) - (blk.nChainTx : ℚ)) +
          ((env.nNow : ℚ) - ((Checkpoints env).nTimeLastCheckpoint : ℚ)) / 86400 *
            (Checkpoints env).fTransactionsPerDay *
            (if fSigchecks then SIGCHECK_VERIFICATION_FACTOR else 1)) := by
  simp only [GuessVerificationWork, hle, if_true]
  push_cast
  rfl

/-- The work amounts of a block after the last checkpoint. -/
theorem GuessVerificationWork_after (env : Env) (blk : CBlockIndex) (fSigchecks : Bool)
    (hlt : (Checkpoints env).nTransactionsLastCheckpoint < blk.nChainTx) :
    GuessVerificationWork env blk fSigchecks =
      (((Checkpoints env).nTransactionsLastCheckpoint : ℚ) +
          ((blk.nChainTx : ℚ) - ((Checkpoints env).nTransactionsLastCheckpoint : ℚ)) *
            (if fSigchecks then SIGCHECK_VERIFICATION_FACTOR else 1),
        ((env.nNow : ℚ) - (blk.nTime : ℚ)) / 86400 *
          (Checkpoints env).fTransactionsPerDay *
          (if fSigchecks then SIGCHECK_VERIFICATION_FACTOR else 1)) := by
  have hnle : ¬ blk.nChainTx ≤ (Checkpoints env).nTransactionsLastCheckpoint := not_le.mpr hlt
  simp only [GuessVerificationWork, hnle, if_false]
  push_cast
  rfl

/-- With a non-negative transaction count the work done is non-negative. -/
theorem GuessVerificationWork_fst_nonneg (env : Env) (blk : CBlockIndex) (fSigchecks : Bool)
    (hn : 0 ≤ blk.nChainTx) : 0 ≤ (GuessVerificationWork env blk fSigchecks).1 := by
  have hf := sigcheck_factor_pos fSigchecks
  have hT : (0 : ℚ) ≤ ((Checkpoints env).nTransactionsLastCheckpoint : ℚ) := by
    exact_mod_cast Checkpoints_txcount_nonneg env
  rcases le_or_lt blk.nChainTx (Checkpoints env).nTransactionsLastCheckpoint with hle | hlt
  · rw [GuessVerificationWork_before env blk fSigchecks hle]
    show (0 : ℚ) ≤ (blk.nChainTx : ℚ)
    exact_mod_cast hn
  · rw [GuessVerificationWork_after env blk fSigchecks hlt]
    have hd : (0 : ℚ) ≤ (blk.nChainTx : ℚ) - ((Checkpoints env).nTransactionsLastCheckpoint : ℚ) := by
      have : ((Checkpoints env).nTransactionsLastCheckpoint : ℚ) ≤ (blk.nChainTx : ℚ) := by
        exact_mod_cast le_of_lt hlt
      linarith
    show (0 : ℚ) ≤ _ + _ * _
    have := mul_nonneg hd (le_of_lt hf)
    linarith

/-- When the clock is not behind the time the estimate counts from (the last
checkpoint's for a block at or before it, the block's own otherwise), the work
left is non-negative. -/
theorem GuessVerificationWork_snd_nonneg (env : Env) (blk : CBlockIndex) (fSigchecks : Bool)
    (hA : blk.nChainTx ≤ (Checkpoints env).nTransactionsLastCheckpoint →
      (Checkpoints env).nTimeLastCheckpoint ≤ env.nNow)
    (hB : (Checkpoints env).nTransactionsLastCheckpoint < blk.nChainTx →
      blk.nTime ≤ env.nNow) :
    0 ≤ (GuessVerificationWork env blk fSigchecks).2 := by
  have hf := sigcheck_factor_pos fSigchecks
  have hr : (0 : ℚ) ≤ (Checkpoints env).fTransactionsPerDay := Checkpoints_rate_nonneg env
  rcases le_or_lt blk.nChainTx (Checkpoints env).nTransactionsLastCheckpoint with hle | hlt
  · rw [GuessVerificationWork_before env blk fSigchecks hle]
    have hd : (0 : ℚ) ≤ ((Checkpoints env).nTransactionsLastCheckpoint : ℚ) - (blk.nChainTx : ℚ) := by
      have : (blk.nChainTx : ℚ) ≤ ((Checkpoints env).nTransactionsLastCheckpoint : ℚ) := by
        exact_mod_cast hle
      linarith
    have ht : (0 : ℚ) ≤ (env.nNow : ℚ) - ((Checkpoints env).nTimeLastCheckpoint : ℚ) := by
      have : ((Checkpoints env).nTimeLastCheckpoint : ℚ) ≤ (env.nNow : ℚ) := by
        exact_mod_cast hA hle
      linarith
    show (0 : ℚ) ≤ _ + _ / 86400 * _ * _
    have := mul_nonneg (mul_nonneg (div_nonneg ht (by norm_num : (0 : ℚ) ≤ 86400)) hr)
      (le_of_lt hf)
    linarith
  · rw [GuessVerificationWork_after env blk fSigchecks hlt]
    have ht : (0 : ℚ) ≤ (env.nNow : ℚ) - (blk.nTime : ℚ) := by
      have : (blk.nTime : ℚ) ≤ (env.nNow : ℚ) := by exact_mod_cast hB hlt
      linarith
    show (0 : ℚ) ≤ _ / 86400 * _ * _
    exact mul_nonneg (mul_nonneg (div_nonneg ht (by norm_num : (0 : ℚ) ≤ 86400)) hr)
      (le_of_lt hf)

/-- The total work is positive when the clock is not behind, unless the
count, the checkpointed count and the transactions expected since the last
checkpoint are all zero. -/
theorem GuessVerificationWork_sum_pos (env : Env) (blk : CBlockIndex) (fSigchecks : Bool)
    (hA : blk.nChainTx ≤ (Checkpoints env).nTransactionsLastCheckpoint →
      (Checkpoints env).nTimeLastCheckpoint ≤ env.nNow)
    (hB : (Checkpoints env).nTransactionsLastCheckpoint < blk.nChainTx →
      blk.nTime ≤ env.nNow)
    (hpos : 0 < blk.nChainTx ∨ 0 < (Checkpoints env).nTransactionsLastCheckpoint ∨
      (0 < (Checkpoints env).fTransactionsPerDay ∧
        (Checkpoints env).nTimeLastCheckpoint < env.nNow)) :
    0 < (GuessVerificationWork env blk fSigchecks).1 +
      (GuessVerificationWork env blk fSigchecks).2 := by
  have hf := sigcheck_factor_pos fSigchecks
  have hr : (0 : ℚ) ≤ (Checkpoints env).fTransactionsPerDay := Checkpoints_rate_nonneg env
  have hT : (0 : ℚ) ≤ ((Checkpoints env).nTransactionsLastCheckpoint : ℚ) := by
    exact_mod_cast Checkpoints_txcount_nonneg env
  have h2 := GuessVerificationWork_snd_nonneg env blk fSigchecks hA hB
  rcases le_or_lt blk.nChainTx (Checkpoints env).nTransactionsLastCheckpoint with hle | hlt
  · rw [GuessVerificationWork_before env blk fSigchecks hle]
    have ht : (0 : ℚ) ≤ (env.nNow : ℚ) - ((Checkpoints env).nTimeLastCheckpoint : ℚ) := by
      have : ((Checkpoints env).nTimeLastCheckpoint : ℚ) ≤ (env.nNow : ℚ) := by
        exact_mod_cast hA hle
      linarith
    have hE : (0 : ℚ) ≤ ((env.nNow : ℚ) - ((Checkpoints env).nTimeLastCheckpoint : ℚ)) / 86400 *
        (Checkpoints env).fTransactionsPerDay *
        (if fSigchecks then SIGCHECK_VERIFICATION_FACTOR else 1) :=
      mul_nonneg (mul_nonneg (div_nonneg ht (by norm_num : (0 : ℚ) ≤ 86400)) hr) (le_of_lt hf)
    show (0 : ℚ) < (blk.nChainTx : ℚ) + (_ - (blk.nChainTx : ℚ) + _ / 86400 * _ * _)
    rcases hpos with hp | hp | ⟨hrate, htime⟩
    · have hTpos : (0 : ℚ) < ((Checkpoints env).nTransactionsLastCheckpoint : ℚ) := by
        exact_mod_cast lt_of_lt_of_le hp hle
      linarith
    · have hTpos : (0 : ℚ) < ((Checkpoints env).nTransactionsLastCheckpoint : ℚ) := by
        exact_mod_cast hp
      linarith
    · have htpos : (0 : ℚ) < (env.nNow : ℚ) - ((Checkpoints env).nTimeLastCheckpoint : ℚ) := by
        have : ((Checkpoints env).nTimeLastCheckpoint : ℚ) < (env.nNow : ℚ) := by
          exact_mod_cast htime
        linarith
      have hEpos : (0 : ℚ) <
          ((env.nNow : ℚ) - ((Checkpoints env).nTimeLastCheckpoint : ℚ)) / 86400 *
            (Checkpoints env).fTransactionsPerDay *
            (if fSigchecks then SIGCHECK_VERIFICATION_FACTOR else 1) :=
        mul_pos (mul_pos (div_pos htpos (by norm_num : (0 : ℚ) < 86400)) hrate) hf
      linarith
  · have h1 : 0 < (GuessVerificationWork env blk fSigchecks).1 := by
      rw [GuessVerificationWork_after env blk fSigchecks hlt]
      have hd : (0 : ℚ) < (blk.nChainTx : ℚ) - ((Checkpoints env).nTransactionsLastCheckpoint : ℚ) := by
        have : ((Checkpoints env).nTransactionsLastCheckpoint : ℚ) < (blk.nChainTx : ℚ) := by
          exact_mod_cast hlt
        linarith
      show (0 : ℚ) < _ + _ * _
      have := mul_pos hd hf
      linarith
    linarith

/-- A quotient by a positive divisor is defined. -/
theorem fdiv_of_pos (a b : ℚ) (hb : 0 < b) : fdiv a b = some (a / b) := by
  simp [fdiv, ne_of_gt hb]

/-- A quotient by zero is undefined. -/
theorem fdiv_zero (a : ℚ) : fdiv a 0 = none := by
  simp [fdiv]

/-- The share of a non-negative amount in a positive total lies in `[0, 1]`. -/
theorem share_mem_unit (a b : ℚ) (ha : 0 ≤ a) (hb : 0 ≤ b) (hpos : 0 < a + b) :
    0 ≤ a / (a + b) ∧ a / (a + b) ≤ 1 := by
  constructor
  · exact div_nonneg ha (le_of_lt hpos)
  · rw [div_le_one hpos]
    linarith

/-- The share grows when the amount grows and the remainder shrinks. -/
theorem share_mono (a b c d : ℚ) (ha : 0 ≤ a) (hac : a ≤ c) (hd : 0 ≤ d) (hdb : d ≤ b)
    (hab : 0 < a + b) (hcd : 0 < c + d) : a / (a + b) ≤ c / (c + d) := by
  rw [div_le_div_iff₀ hab hcd]
  have h1 : a * d ≤ a * b := mul_le_mul_of_nonneg_left hdb ha
  have h2 : a * b ≤ c * b := mul_le_mul_of_nonneg_right hac (le_trans hd hdb)
  nlinarith

/-- On Main the selector yields `data`. -/
theorem Checkpoints_main (fEnabled : Bool) (now : Int) :
    Checkpoints ⟨fEnabled, Network.MAIN, now⟩ = data := rfl

/-- On Test the selector yields `dataTestnet`. -/
theorem Checkpoints_testnet (fEnabled : Bool) (now : Int) :
    Checkpoints ⟨fEnabled, Network.TESTNET, now⟩ = dataTestnet := rfl

/-- On Regtest the selector yields `dataRegtest`. -/
theorem Checkpoints_regtest (fEnabled : Bool) (now : Int) :
    Checkpoints ⟨fEnabled, Network.REGTEST, now⟩ = dataRegtest := rfl

/-! ## Block-hash verifier -/

/-- C1: with checkpointing enabled, on every network and for every entry
`(h, d)` of the active table, `CheckBlock h x` is true exactly when `x = d`. -/
theorem CheckBlock_checkpointed (net : Network) (now : Int) (h : Int) (d : uint256)
    (hm : (h, d) ∈ (Checkpoints ⟨true, net, now⟩).mapCheckpoints) (x : uint256) :
    CheckBlock ⟨true, net, now⟩ h x = true ↔ x = d := by
  have hfind := StdMap.find_of_mem _ (Checkpoints_ascending ⟨true, net, now⟩) h d hm
  simp [CheckBlock, hfind]

/-- C1 on Main at height 41056: the stored digest is accepted and the next
number is rejected. -/
theorem CheckBlock_checkpointed_witness :
    ((41056, 0x000000001f12305bf0443551030d9f18c5d7b1a6b7eb8e899b1b26fc45924ade)
        ∈ (Checkpoints ⟨true, Network.MAIN, 0⟩).mapCheckpoints) ∧
      CheckBlock ⟨true, Network.MAIN, 0⟩ 41056
        0x000000001f12305bf0443551030d9f18c5d7b1a6b7eb8e899b1b26fc45924ade = true ∧
      CheckBlock ⟨true, Network.MAIN, 0⟩ 41056
        0x000000001f12305bf0443551030d9f18c5d7b1a6b7eb8e899b1b26fc45924adf = false := by
  have hm : ((41056, 0x000000001f12305bf0443551030d9f18c5d7b1a6b7eb8e899b1b26fc45924ade)
      ∈ (Checkpoints ⟨true, Network.MAIN, 0⟩).mapCheckpoints) := by decide
  refine ⟨hm, ?_, ?_⟩
  · exact (CheckBlock_checkpointed Network.MAIN 0 41056 _ hm _).mpr rfl
  · have hiff := CheckBlock_checkpointed Network.MAIN 0 41056 _ hm
      0x000000001f12305bf0443551030d9f18c5d7b1a6b7eb8e899b1b26fc45924adf
    cases hc : CheckBlock ⟨true, Network.MAIN, 0⟩ 41056
        0x000000001f12305bf0443551030d9f18c5d7b1a6b7eb8e899b1b26fc45924adf with
    | false => rfl
    | true => exact absurd (hiff.mp hc) (by decide)

/-- C2: in every process state, a height (negative ones included) that is not
a key of the active table is accepted with any hash. -/
theorem CheckBlock_unlisted (env : Env) (h : Int)
    (hk : ∀ d, (h, d) ∉ (Checkpoints env).mapCheckpoints) (x : uint256) :
    CheckBlock env h x = true := by
  have hfind := StdMap.find_eq_none_of_not_key _ h hk
  simp [CheckBlock, hfind]

/-- C2 on Main: height 99999 has no checkpoint and any hash passes. -/
theorem CheckBlock_unlisted_witness :
    (∀ d, ((99999 : Int), d) ∉ (Checkpoints ⟨true, Network.MAIN, 0⟩).mapCheckpoints) ∧
      CheckBlock ⟨true, Network.MAIN, 0⟩ 99999 12345 = true := by
  have hk : ∀ d, ((99999 : Int), d) ∉ (Checkpoints ⟨true, Network.MAIN, 0⟩).mapCheckpoints :=
    fun d hd =>
      absurd (List.mem_map_of_mem Prod.fst hd)
        (show (99999 : Int) ∉ ((Checkpoints ⟨true, Network.MAIN, 0⟩).mapCheckpoints).map Prod.fst
          by decide)
  exact ⟨hk, CheckBlock_unlisted ⟨true, Network.MAIN, 0⟩ 99999 hk 12345⟩

/-! ## Last-checkpoint locator -/

/-- C3: with checkpointing enabled, `GetLastCheckpoint idx` is `NULL` when no
hash of the active table is a key of `idx`; otherwise it is the value `idx`
stores under the hash of the highest table entry whose hash is a key. -/
theorem GetLastCheckpoint_highest (net : Network) (now : Int)
    (idx : StdMap uint256 CBlockIndexPtr) :
    ((∀ e ∈ (Checkpoints ⟨true, net, now⟩).mapCheckpoints, StdMap.find idx e.2 = none) →
        GetLastCheckpoint ⟨true, net, now⟩ idx = none) ∧
      (∀ (h : Int) (d : uint256) (t : CBlockIndexPtr),
        (h, d) ∈ (Checkpoints ⟨true, net, now⟩).mapCheckpoints →
        StdMap.find idx d = some t →
        (∀ e ∈ (Checkpoints ⟨true, net, now⟩).mapCheckpoints,
          (StdMap.find idx e.2).isSome = true → e.1 ≤ h) →
        GetLastCheckpoint ⟨true, net, now⟩ idx = t) := by
  constructor
  · intro hno
    simp only [GetLastCheckpoint, Bool.not_true, Bool.false_eq_true, if_false]
    exact GetLastCheckpoint.scan_none idx _ (fun e he => hno e (List.mem_reverse.mp he))
  · intro h d t hm hf hmax
    simp only [GetLastCheckpoint, Bool.not_true, Bool.false_eq_true, if_false]
    refine GetLastCheckpoint.scan_highest idx _ ?_ h d t (List.mem_reverse.mpr hm) hf
      (fun e he => hmax e (List.mem_reverse.mp he))
    exact List.pairwise_reverse.mpr (Checkpoints_ascending ⟨true, net, now⟩)

/-- C3 on Main: an index holding only the genesis hash yields its reference,
and an empty index yields `NULL`. -/
theorem GetLastCheckpoint_highest_witness :
    GetLastCheckpoint ⟨true, Network.MAIN, 0⟩
        [(0x00000c257b93a36e9a4318a64398d661866341331a984e2b486414fc5bb16ccd,
          some ⟨1, 1390095618⟩)] = some ⟨1, 1390095618⟩ ∧
      GetLastCheckpoint ⟨true, Network.MAIN, 0⟩ [] = none :=
  ⟨(GetLastCheckpoint_highest Network.MAIN 0
      [(0x00000c257b93a36e9a4318a64398d661866341331a984e2b486414fc5bb16ccd,
        some ⟨1, 1390095618⟩)]).2 0
      0x00000c257b93a36e9a4318a64398d661866341331a984e2b486414fc5bb16ccd
      (some ⟨1, 1390095618⟩) (by decide) (by decide) (by decide),
    (GetLastCheckpoint_highest Network.MAIN 0 []).1 (by decide)⟩

/-! ## Total-blocks estimate -/

/-- C4: with checkpointing enabled, `GetTotalBlocksEstimate` returns the
greatest height key of the active table: 972235 on Main, 0 on Test and 0 on
Regtest (and on any other identity, which selects the Regtest profile). -/
theorem GetTotalBlocksEstimate_max (net : Network) (now : Int) :
    (∃ h : Int, GetTotalBlocksEstimate ⟨true, net, now⟩ = some h ∧
        (∃ d, (h, d) ∈ (Checkpoints ⟨true, net, now⟩).mapCheckpoints) ∧
        ∀ e ∈ (Checkpoints ⟨true, net, now⟩).mapCheckpoints, e.1 ≤ h) ∧
      GetTotalBlocksEstimate ⟨true, Network.MAIN, now⟩ = some 972235 ∧
      GetTotalBlocksEstimate ⟨true, Network.TESTNET, now⟩ = some 0 ∧
      GetTotalBlocksEstimate ⟨true, Network.REGTEST, now⟩ = some 0 := by
  refine ⟨?_, ?_, ?_, ?_⟩
  · have hsome := Checkpoints_rbegin_isSome ⟨true, net, now⟩
    obtain ⟨e, he⟩ := Option.isSome_iff_exists.mp hsome
    have hg := StdMap.rbegin_greatest _ (Checkpoints_ascending ⟨true, net, now⟩) e he
    refine ⟨e.1, ?_, ⟨e.2, hg.1⟩, hg.2⟩
    simp [GetTotalBlocksEstimate, he]
  · rfl
  · rfl
  · rfl

/-! ## Enablement switch -/

/-- C5: with `fEnabled` false, on every network and for every input,
`CheckBlock` is true, `GetLastCheckpoint` is `NULL`, `GetTotalBlocksEstimate`
is 0, and `GuessVerificationProgress` is what it is with `fEnabled` true. -/
theorem disabled_defaults (net : Network) (now : Int) (h : Int) (x : uint256)
    (idx : StdMap uint256 CBlockIndexPtr) (pindex : CBlockIndexPtr) (fSigchecks : Bool) :
    CheckBlock ⟨false, net, now⟩ h x = true ∧
      GetLastCheckpoint ⟨false, net, now⟩ idx = none ∧
      GetTotalBlocksEstimate ⟨false, net, now⟩ = some 0 ∧
      GuessVerificationProgress ⟨false, net, now⟩ pindex fSigchecks =
        GuessVerificationProgress ⟨true, net, now⟩ pindex fSigchecks := by
  refine ⟨?_, ?_, ?_, ?_⟩
  · simp [CheckBlock]
  · simp [GetLastCheckpoint]
  · simp [GetTotalBlocksEstimate]
  · cases pindex with
    | none => rfl
    | some blk => rfl

/-! ## Profile selector -/

/-- C6: the selector is total over network identities: the Main profile
(timestamp 1402075019, 1371986 transactions, 2880 per day) for `MAIN`, the
Test profile (1373481000, 0, 2880) for `TESTNET`, and the Regtest profile
(0, 0, 0) for every other identity. -/
theorem Checkpoints_selector (fEnabled : Bool) (now : Int) :
    (Checkpoints ⟨fEnabled, Network.MAIN, now⟩ = data ∧
        data.mapCheckpoints = mapCheckpoints ∧
        data.nTimeLastCheckpoint = 1402075019 ∧
        data.nTransactionsLastCheckpoint = 1371986 ∧
        data.fTransactionsPerDay = 2880) ∧
      (Checkpoints ⟨fEnabled, Network.TESTNET, now⟩ = dataTestnet ∧
        dataTestnet.mapCheckpoints = mapCheckpointsTestnet ∧
        dataTestnet.nTimeLastCheckpoint = 1373481000 ∧
        dataTestnet.nTransactionsLastCheckpoint = 0 ∧
        dataTestnet.fTransactionsPerDay = 2880) ∧
      (∀ net : Network, net ≠ Network.MAIN → net ≠ Network.TESTNET →
        Checkpoints ⟨fEnabled, net, now⟩ = dataRegtest) ∧
      (dataRegtest.mapCheckpoints = mapCheckpointsRegtest ∧
        dataRegtest.nTimeLastCheckpoint = 0 ∧
        dataRegtest.nTransactionsLastCheckpoint = 0 ∧
        dataRegtest.fTransactionsPerDay = 0) := by
  refine ⟨⟨rfl, rfl, rfl, rfl, rfl⟩, ⟨rfl, rfl, rfl, rfl, rfl⟩, ?_, ⟨rfl, rfl, rfl, rfl⟩⟩
  intro net hmain htest
  simp [Checkpoints, hmain, htest]

/-- C6 at two identities other than Main and Test: both select Regtest. -/
theorem Checkpoints_selector_witness :
    Checkpoints ⟨true, Network.REGTEST, 0⟩ = dataRegtest ∧
      Checkpoints ⟨true, Network.OTHER 7, 0⟩ = dataRegtest :=
  ⟨(Checkpoints_selector true 0).2.2.1 Network.REGTEST (by decide) (by decide),
    (Checkpoints_selector true 0).2.2.1 (Network.OTHER 7) (by decide) (by decide)⟩

/-! ## Progress estimate -/

/-- C7 fails as stated: on Main, with the clock 30 seconds behind the last
checkpoint's timestamp, the block at the last checkpoint gets a progress above
one. -/
theorem GuessVerificationProgress_above_one :
    GuessVerificationProgress ⟨true, Network.MAIN, 1402074989⟩
        (some ⟨1371986, 1402075019⟩) false = some (1371986 / 1371985) ∧
      (1 : ℚ) < 1371986 / 1371985 := by
  constructor
  · rw [GuessVerificationProgress, GuessVerificationWork_before _ _ _ (by decide)]
    norm_num [fdiv, Checkpoints_main, data]
  · norm_num

/-- C7 (amended): for every profile, flag and block with a non-negative
transaction count, when the clock is not behind the last checkpoint's
timestamp (block at or before the last checkpoint) or the block's time (block
after it), and the count, the checkpointed count or the transactions expected
since the last checkpoint are positive, the progress is a value in `[0, 1]`. -/
theorem GuessVerificationProgress_unit_interval (env : Env) (blk : CBlockIndex)
    (fSigchecks : Bool) (hn : 0 ≤ blk.nChainTx)
    (hA : blk.nChainTx ≤ (Checkpoints env).nTransactionsLastCheckpoint →
      (Checkpoints env).nTimeLastCheckpoint ≤ env.nNow)
    (hB : (Checkpoints env).nTransactionsLastCheckpoint < blk.nChainTx →
      blk.nTime ≤ env.nNow)
    (hpos : 0 < blk.nChainTx ∨ 0 < (Checkpoints env).nTransactionsLastCheckpoint ∨
      (0 < (Checkpoints env).fTransactionsPerDay ∧
        (Checkpoints env).nTimeLastCheckpoint < env.nNow)) :
    ∃ r : ℚ, GuessVerificationProgress env (some blk) fSigchecks = some r ∧
      0 ≤ r ∧ r ≤ 1 := by
  have h1 := GuessVerificationWork_fst_nonneg env blk fSigchecks hn
  have h2 := GuessVerificationWork_snd_nonneg env blk fSigchecks hA hB
  have hs := GuessVerificationWork_sum_pos env blk fSigchecks hA hB hpos
  refine ⟨_, fdiv_of_pos _ _ hs, ?_⟩
  exact share_mem_unit _ _ h1 h2 hs

/-- C7 (amended) on Main, one day after the last checkpoint, at the block of
the last checkpoint, with sigcheck weighting. -/
theorem GuessVerificationProgress_unit_interval_witness :
    ∃ r : ℚ, GuessVerificationProgress ⟨true, Network.MAIN, 1402161419⟩
        (some ⟨1371986, 1402075019⟩) true = some r ∧ 0 ≤ r ∧ r ≤ 1 :=
  GuessVerificationProgress_unit_interval ⟨true, Network.MAIN, 1402161419⟩
    ⟨1371986, 1402075019⟩ true (by decide) (fun _ => by decide) (fun _ => by decide)
    (Or.inl (by decide))

/-- C9 fails as stated: on Regtest a block with transaction count 0 is not
special-cased; the quotient `0 / 0` is taken and no value, neither 0 nor 1, is
returned. -/
theorem GuessVerificationProgress_regtest_undefined :
    GuessVerificationProgress ⟨true, Network.REGTEST, 1402075019⟩
        (some ⟨0, 1296688602⟩) false = none ∧
      GuessVerificationProgress ⟨true, Network.REGTEST, 1402075019⟩
        (some ⟨0, 1296688602⟩) false ≠ some 0 ∧
      GuessVerificationProgress ⟨true, Network.REGTEST, 1402075019⟩
        (some ⟨0, 1296688602⟩) false ≠ some 1 := by
  have hnone : GuessVerificationProgress ⟨true, Network.REGTEST, 1402075019⟩
      (some ⟨0, 1296688602⟩) false = none := by
    rw [GuessVerificationProgress, GuessVerificationWork_before _ _ _ (by decide)]
    norm_num [fdiv, Checkpoints_regtest, dataRegtest]
  rw [hnone]
  exact ⟨rfl, by simp, by simp⟩

/-- C9 (amended): on Regtest, for a block with transaction count 0 and any
block time, flag and clock, the work done and the work left are both 0 and the
progress is the quotient `0 / 0`, which has no value. -/
theorem GuessVerificationProgress_regtest_zero (fEnabled : Bool) (now t : Int)
    (fSigchecks : Bool) :
    GuessVerificationWork ⟨fEnabled, Network.REGTEST, now⟩ ⟨0, t⟩ fSigchecks = (0, 0) ∧
      GuessVerificationProgress ⟨fEnabled, Network.REGTEST, now⟩ (some ⟨0, t⟩) fSigchecks =
        none := by
  have hw : GuessVerificationWork ⟨fEnabled, Network.REGTEST, now⟩ ⟨0, t⟩ fSigchecks =
      (0, 0) := by
    rw [GuessVerificationWork_before _ _ _ (show (0 : Int) ≤ 0 by decide)]
    norm_num [Checkpoints_regtest, dataRegtest]
  refine ⟨hw, ?_⟩
  rw [GuessVerificationProgress, hw]
  norm_num [fdiv]

/-- C10 fails as stated: on Main, with the clock at 1360915439 (before the
last checkpoint's timestamp), the block at the last checkpoint has work done
1371986 and work left -1371986: their sum is zero and no progress value is
returned. -/
theorem GuessVerificationWork_main_zero_sum :
    (GuessVerificationWork ⟨true, Network.MAIN, 1360915439⟩ ⟨1371986, 1402075019⟩ false).1 +
        (GuessVerificationWork ⟨true, Network.MAIN, 1360915439⟩
          ⟨1371986, 1402075019⟩ false).2 = 0 ∧
      GuessVerificationProgress ⟨true, Network.MAIN, 1360915439⟩
        (some ⟨1371986, 1402075019⟩) false = none := by
  have hw : GuessVerificationWork ⟨true, Network.MAIN, 1360915439⟩
      ⟨1371986, 1402075019⟩ false = (1371986, -1371986) := by
    rw [GuessVerificationWork_before _ _ _ (by decide)]
    norm_num [Checkpoints_main, data]
  constructor
  · rw [hw]; norm_num
  · rw [GuessVerificationProgress, hw]
    norm_num [fdiv]

/-- C10 (amended): on Main, for every block and flag, when the clock is not
behind the last checkpoint's timestamp (block at or before the last
checkpoint) or the block's time (block after it), the sum of the work done
and the work left is non-zero and the progress is a value. -/
theorem GuessVerificationWork_main_nonzero (fEnabled : Bool) (now : Int) (blk : CBlockIndex)
    (fSigchecks : Bool)
    (hA : blk.nChainTx ≤ 1371986 → 1402075019 ≤ now)
    (hB : 1371986 < blk.nChainTx → blk.nTime ≤ now) :
    (GuessVerificationWork ⟨fEnabled, Network.MAIN, now⟩ blk fSigchecks).1 +
        (GuessVerificationWork ⟨fEnabled, Network.MAIN, now⟩ blk fSigchecks).2 ≠ 0 ∧
      (GuessVerificationProgress ⟨fEnabled, Network.MAIN, now⟩ (some blk) fSigchecks).isSome
        = true := by
  have hs := GuessVerificationWork_sum_pos ⟨fEnabled, Network.MAIN, now⟩ blk fSigchecks
    hA hB (Or.inr (Or.inl (show (0 : Int) < 1371986 by decide)))
  refine ⟨ne_of_gt hs, ?_⟩
  rw [GuessVerificationProgress, fdiv_of_pos _ _ hs]
  rfl

/-- C10 (amended) on Main, one day after the last checkpoint, at a block with
count 0 and at a block after the checkpoint. -/
theorem GuessVerificationWork_main_nonzero_witness :
    ((GuessVerificationWork ⟨true, Network.MAIN, 1402161419⟩ ⟨0, 1390095618⟩ false).1 +
        (GuessVerificationWork ⟨true, Network.MAIN, 1402161419⟩ ⟨0, 1390095618⟩ false).2
          ≠ 0) ∧
      ((GuessVerificationWork ⟨true, Network.MAIN, 1402161419⟩ ⟨1400000, 1402100000⟩ true).1 +
        (GuessVerificationWork ⟨true, Network.MAIN, 1402161419⟩ ⟨1400000, 1402100000⟩ true).2
          ≠ 0) :=
  ⟨(GuessVerificationWork_main_nonzero true 1402161419 ⟨0, 1390095618⟩ false
      (fun _ => by decide) (fun _ => by decide)).1,
    (GuessVerificationWork_main_nonzero true 1402161419 ⟨1400000, 1402100000⟩ true
      (fun _ => by decide) (fun _ => by decide)).1⟩

/-- C11: without a block reference the progress is exactly 0, whatever the
enablement flag, the network, the clock and the weighting flag are. -/
theorem GuessVerificationProgress_null (env : Env) (fSigchecks : Bool) :
    GuessVerificationProgress env none fSigchecks = some 0 := rfl

/-! ## Table invariants -/

/-- C12: each compiled-in table holds its heights in the listed order, and in
each the heights are strictly increasing, non-negative and pairwise distinct,
a height has at most one digest, and the last entry has the greatest height. -/
theorem tables_strictly_ascending :
    mapCheckpoints.map Prod.fst =
        [0, 41056, 81847, 308484, 380481, 404998, 411932, 423094, 443157, 458433,
          464836, 467282, 473033, 538178, 621138, 714001, 797370, 895901, 972235] ∧
      mapCheckpointsTestnet.map Prod.fst = [0] ∧
      mapCheckpointsRegtest.map Prod.fst = [0] ∧
      ∀ t ∈ [mapCheckpoints, mapCheckpointsTestnet, mapCheckpointsRegtest],
        t.Pairwise (fun a b => a.1 < b.1) ∧
        (∀ e ∈ t, 0 ≤ e.1) ∧
        (t.map Prod.fst).Nodup ∧
        (∀ (h : Int) (d d' : uint256), (h, d) ∈ t → (h, d') ∈ t → d = d') ∧
        (∀ e, StdMap.rbegin t = some e → ∀ e' ∈ t, e'.1 ≤ e.1) := by
  refine ⟨by decide, by decide, by decide, ?_⟩
  intro t ht
  have hfacts : t.Pairwise (fun a b => a.1 < b.1) ∧ (∀ e ∈ t, 0 ≤ e.1) ∧
      (t.map Prod.fst).Nodup := by
    simp only [List.mem_cons, List.mem_singleton, List.not_mem_nil, or_false] at ht
    rcases ht with rfl | rfl | rfl
    · exact ⟨by decide, by decide, by decide⟩
    · exact ⟨by decide, by decide, by decide⟩
    · exact ⟨by decide, by decide, by decide⟩
  refine ⟨hfacts.1, hfacts.2.1, hfacts.2.2, ?_, ?_⟩
  · intro h d d' hm hm'
    exact StdMap.value_unique t hfacts.1 h d d' hm hm'
  · intro e he
    exact (StdMap.rbegin_greatest t hfacts.1 e he).2

/-- C15: on every network identity the active table is non-empty, so with
checkpointing enabled `GetTotalBlocksEstimate` finds a last entry and returns
a height. -/
theorem GetTotalBlocksEstimate_defined (fEnabled : Bool) (net : Network) (now : Int) :
    (Checkpoints ⟨fEnabled, net, now⟩).mapCheckpoints ≠ [] ∧
      GetTotalBlocksEstimate ⟨true, net, now⟩ ≠ none := by
  constructor
  · intro hnil
    have hsome := Checkpoints_rbegin_isSome ⟨fEnabled, net, now⟩
    rw [hnil] at hsome
    simp [StdMap.rbegin] at hsome
  · have hsome := Checkpoints_rbegin_isSome ⟨true, net, now⟩
    obtain ⟨e, he⟩ := Option.isSome_iff_exists.mp hsome
    simp [GetTotalBlocksEstimate, he]

/-! ## Progress formulas -/

/-- C13: for every profile, flag and clock, the progress of a block whose
count is at most the checkpointed count (equality included) is the spec's
Case A quotient, and it is the same for every block time. -/
theorem GuessVerificationProgress_caseA (env : Env) (blk : CBlockIndex) (fSigchecks : Bool)
    (hle : blk.nChainTx ≤ (Checkpoints env).nTransactionsLastCheckpoint) :
    GuessVerificationProgress env (some blk) fSigchecks =
        specProgressCaseA (Checkpoints env).nTransactionsLastCheckpoint
          (Checkpoints env).nTimeLastCheckpoint (Checkpoints env).fTransactionsPerDay
          blk.nChainTx env.nNow fSigchecks ∧
      ∀ t : Int, GuessVerificationProgress env (some ⟨blk.nChainTx, t⟩) fSigchecks =
        GuessVerificationProgress env (some blk) fSigchecks := by
  constructor
  · rw [GuessVerificationProgress, GuessVerificationWork_before env blk fSigchecks hle]
    simp only [specProgressCaseA, specFactor, SIGCHECK_VERIFICATION_FACTOR, add_assoc]
  · intro t
    have hle' : (⟨blk.nChainTx, t⟩ : CBlockIndex).nChainTx ≤
        (Checkpoints env).nTransactionsLastCheckpoint := hle
    rw [GuessVerificationProgress, GuessVerificationProgress,
      GuessVerificationWork_before env blk fSigchecks hle,
      GuessVerificationWork_before env ⟨blk.nChainTx, t⟩ fSigchecks hle']

/-- C13 on Main, one day after the last checkpoint, at the checkpointed count
itself, with sigcheck weighting. -/
theorem GuessVerificationProgress_caseA_witness :
    GuessVerificationProgress ⟨true, Network.MAIN, 1402161419⟩
        (some ⟨1371986, 1402075019⟩) true =
        specProgressCaseA 1371986 1402075019 2880 1371986 1402161419 true ∧
      specProgressCaseA 1371986 1402075019 2880 1371986 1402161419 true =
        some (1371986 / 1386386) :=
  ⟨(GuessVerificationProgress_caseA ⟨true, Network.MAIN, 1402161419⟩
      ⟨1371986, 1402075019⟩ true (by decide)).1,
    by norm_num [specProgressCaseA, specFactor, fdiv]⟩

/-- C14: for every profile, flag and clock, the progress of a block whose
count exceeds the checkpointed count is the spec's Case B quotient, in which
the last checkpoint's timestamp does not occur. -/
theorem GuessVerificationProgress_caseB (env : Env) (blk : CBlockIndex) (fSigchecks : Bool)
    (hlt : (Checkpoints env).nTransactionsLastCheckpoint < blk.nChainTx) :
    GuessVerificationProgress env (some blk) fSigchecks =
      specProgressCaseB (Checkpoints env).nTransactionsLastCheckpoint
        (Checkpoints env).fTransactionsPerDay blk.nChainTx blk.nTime env.nNow fSigchecks := by
  rw [GuessVerificationProgress, GuessVerificationWork_after env blk fSigchecks hlt]
  simp only [specProgressCaseB, specFactor, SIGCHECK_VERIFICATION_FACTOR]

/-- C14 on Main, one day after the last checkpoint, at the first count beyond
the checkpointed one, with sigcheck weighting. -/
theorem GuessVerificationProgress_caseB_witness :
    GuessVerificationProgress ⟨true, Network.MAIN, 1402161419⟩
        (some ⟨1371987, 1402075019⟩) true =
        specProgressCaseB 1371986 2880 1371987 1402075019 1402161419 true ∧
      specProgressCaseB 1371986 2880 1371987 1402075019 1402161419 true =
        some (1371991 / 1386391) :=
  ⟨GuessVerificationProgress_caseB ⟨true, Network.MAIN, 1402161419⟩
      ⟨1371987, 1402075019⟩ true (by decide),
    by norm_num [specProgressCaseB, specFactor, fdiv]⟩

/-! ## Progress on Main with a clock that is not behind -/

/-- C16: on Main, for every flag and every block with a non-negative count,
when the clock is neither behind the last checkpoint's timestamp nor behind
the block's time, the total work is strictly positive and the progress is a
value in `[0, 1]`. -/
theorem GuessVerificationProgress_main_unit_interval (fEnabled : Bool) (now : Int)
    (blk : CBlockIndex) (fSigchecks : Bool)
    (hn : 0 ≤ blk.nChainTx) (hcp : 1402075019 ≤ now) (ht : blk.nTime ≤ now) :
    0 < (GuessVerificationWork ⟨fEnabled, Network.MAIN, now⟩ blk fSigchecks).1 +
        (GuessVerificationWork ⟨fEnabled, Network.MAIN, now⟩ blk fSigchecks).2 ∧
      ∃ r : ℚ, GuessVerificationProgress ⟨fEnabled, Network.MAIN, now⟩ (some blk) fSigchecks =
        some r ∧ 0 ≤ r ∧ r ≤ 1 := by
  have h1 := GuessVerificationWork_fst_nonneg ⟨fEnabled, Network.MAIN, now⟩ blk fSigchecks hn
  have h2 := GuessVerificationWork_snd_nonneg ⟨fEnabled, Network.MAIN, now⟩ blk fSigchecks
    (fun _ => hcp) (fun _ => ht)
  have hs := GuessVerificationWork_sum_pos ⟨fEnabled, Network.MAIN, now⟩ blk fSigchecks
    (fun _ => hcp) (fun _ => ht) (Or.inr (Or.inl (show (0 : Int) < 1371986 by decide)))
  exact ⟨hs, _, fdiv_of_pos _ _ hs, share_mem_unit _ _ h1 h2 hs⟩

/-- C16 on Main, one day after the last checkpoint, at a block with count 0. -/
theorem GuessVerificationProgress_main_unit_interval_witness :
    0 < (GuessVerificationWork ⟨true, Network.MAIN, 1402161419⟩ ⟨0, 1390095618⟩ true).1 +
        (GuessVerificationWork ⟨true, Network.MAIN, 1402161419⟩ ⟨0, 1390095618⟩ true).2 ∧
      ∃ r : ℚ, GuessVerificationProgress ⟨true, Network.MAIN, 1402161419⟩
        (some ⟨0, 1390095618⟩) true = some r ∧ 0 ≤ r ∧ r ≤ 1 :=
  GuessVerificationProgress_main_unit_interval true 1402161419 ⟨0, 1390095618⟩ true
    (by decide) (by decide) (by decide)

/-- C18: on Main, for every block with a non-negative count, when the clock
is neither behind the last checkpoint's timestamp nor behind the block's time,
the progress with sigcheck weighting is at most the progress without it. -/
theorem GuessVerificationProgress_main_sigcheck_le (fEnabled : Bool) (now : Int)
    (blk : CBlockIndex)
    (hn : 0 ≤ blk.nChainTx) (hcp : 1402075019 ≤ now) (ht : blk.nTime ≤ now) :
    ∃ rs r : ℚ,
      GuessVerificationProgress ⟨fEnabled, Network.MAIN, now⟩ (some blk) true = some rs ∧
      GuessVerificationProgress ⟨fEnabled, Network.MAIN, now⟩ (some blk) false = some r ∧
      rs ≤ r := by
  have hTpos : (0 : Int) < 1371986 := by decide
  have hsT := GuessVerificationWork_sum_pos ⟨fEnabled, Network.MAIN, now⟩ blk true
    (fun _ => hcp) (fun _ => ht) (Or.inr (Or.inl hTpos))
  have hsF := GuessVerificationWork_sum_pos ⟨fEnabled, Network.MAIN, now⟩ blk false
    (fun _ => hcp) (fun _ => ht) (Or.inr (Or.inl hTpos))
  refine ⟨_, _, fdiv_of_pos _ _ hsT, fdiv_of_pos _ _ hsF, ?_⟩
  have hr : (0 : ℚ) ≤ (Checkpoints ⟨fEnabled, Network.MAIN, now⟩).fTransactionsPerDay :=
    Checkpoints_rate_nonneg _
  have hT : (0 : ℚ) ≤
      ((Checkpoints ⟨fEnabled, Network.MAIN, now⟩).nTransactionsLastCheckpoint : ℚ) := by
    exact_mod_cast Checkpoints_txcount_nonneg ⟨fEnabled, Network.MAIN, now⟩
  rcases le_or_lt blk.nChainTx
      (Checkpoints ⟨fEnabled, Network.MAIN, now⟩).nTransactionsLastCheckpoint with hle | hlt
  · have hw := GuessVerificationWork_fst_nonneg ⟨fEnabled, Network.MAIN, now⟩ blk true hn
    have h2 := GuessVerificationWork_snd_nonneg ⟨fEnabled, Network.MAIN, now⟩ blk false
      (fun _ => hcp) (fun _ => ht)
    have hE : (0 : ℚ) ≤ ((now : ℚ) -
        ((Checkpoints ⟨fEnabled, Network.MAIN, now⟩).nTimeLastCheckpoint : ℚ)) / 86400 *
        (Checkpoints ⟨fEnabled, Network.MAIN, now⟩).fTransactionsPerDay := by
      have hc : ((Checkpoints ⟨fEnabled, Network.MAIN, now⟩).nTimeLastCheckpoint : ℚ) ≤
          (now : ℚ) := by exact_mod_cast hcp
      exact mul_nonneg (div_nonneg (sub_nonneg.mpr hc) (by norm_num)) hr
    refine share_mono _ _ _ _ hw ?_ h2 ?_ hsT hsF
    · rw [GuessVerificationWork_before _ blk true hle,
        GuessVerificationWork_before _ blk false hle]
    · rw [GuessVerificationWork_before _ blk true hle,
        GuessVerificationWork_before _ blk false hle]
      simp only [SIGCHECK_VERIFICATION_FACTOR, if_true, Bool.false_eq_true, if_false]
      linarith
  · have hd : (0 : ℚ) ≤ (blk.nChainTx : ℚ) -
        ((Checkpoints ⟨fEnabled, Network.MAIN, now⟩).nTransactionsLastCheckpoint : ℚ) := by
      have : ((Checkpoints ⟨fEnabled, Network.MAIN, now⟩).nTransactionsLastCheckpoint : ℚ) ≤
          (blk.nChainTx : ℚ) := by exact_mod_cast le_of_lt hlt
      linarith
    have hW : (0 : ℚ) ≤ ((now : ℚ) - (blk.nTime : ℚ)) / 86400 *
        (Checkpoints ⟨fEnabled, Network.MAIN, now⟩).fTransactionsPerDay := by
      have hc : (blk.nTime : ℚ) ≤ (now : ℚ) := by exact_mod_cast ht
      exact mul_nonneg (div_nonneg (sub_nonneg.mpr hc) (by norm_num)) hr
    rw [GuessVerificationWork_after _ blk true hlt] at hsT ⊢
    rw [GuessVerificationWork_after _ blk false hlt] at hsF ⊢
    simp only [SIGCHECK_VERIFICATION_FACTOR, if_true, Bool.false_eq_true, if_false] at hsT hsF ⊢
    rw [div_le_div_iff₀ hsT hsF]
    nlinarith [mul_nonneg hT hW, mul_nonneg hd hW]

/-- C18 on Main, two days after the last checkpoint, at a block one day after
the last checkpoint with 3000 transactions beyond the checkpointed count. -/
theorem GuessVerificationProgress_main_sigcheck_le_witness :
    ∃ rs r : ℚ,
      GuessVerificationProgress ⟨true, Network.MAIN, 1402247819⟩
        (some ⟨1374986, 1402161419⟩) true = some rs ∧
      GuessVerificationProgress ⟨true, Network.MAIN, 1402247819⟩
        (some ⟨1374986, 1402161419⟩) false = some r ∧
      rs ≤ r :=
  GuessVerificationProgress_main_sigcheck_le true 1402247819 ⟨1374986, 1402161419⟩
    (by decide) (by decide) (by decide)

/-! ## Progress in binary64 -/

/-- Known values of the rounding: integers below `2 ^ 53` are kept, the ties
`2 ^ 53 + 1` and `2 ^ 53 + 3` go to the even neighbour, `1 / 10` and `1 / 3`
round to the binary64 constants `0x1.999999999999ap-4` and
`0x1.5555555555555p-2`, and half the least subnormal rounds to zero. -/
theorem roundDouble_known_values :
    roundDouble 33554431 = 33554431 ∧
      roundDouble (2 ^ 53 + 1) = 2 ^ 53 ∧
      roundDouble (2 ^ 53 + 3) = 2 ^ 53 + 4 ∧
      roundDouble (1 / 10) = 7205759403792794 / 2 ^ 56 ∧
      roundDouble (-(1 / 3)) = -(6004799503160661 / 2 ^ 54) ∧
      roundDouble (1 / 2 ^ 1075) = 0 := by
  decide!

/-- The fall of C8's counterexample is also the source's in `double`
arithmetic: on Main with the clock at the last checkpoint's timestamp and a
block time one day earlier, count 1371986 gives 1 and count 1371987 gives
`0x1.feed6feb0f293p-1`. -/
theorem GuessVerificationProgressDouble_count_drop :
    GuessVerificationProgressDouble ⟨true, Network.MAIN, 1402075019⟩
        (some ⟨1371986, 1401988619⟩) false = some 1 ∧
      GuessVerificationProgressDouble ⟨true, Network.MAIN, 1402075019⟩
        (some ⟨1371987, 1401988619⟩) false = some (8988331441451667 / 2 ^ 53) ∧
      (8988331441451667 / 2 ^ 53 : ℚ) < 1 := by
  decide!

/-- In `double` arithmetic the amended C8 does not hold to the last bit: on
Main with the clock at 1402075021 and block time 1402075019, raising the count
from 536870911 to 536870912 lowers the result from `0x1.fffffffeeeeefp-1` to
`0x1.fffffffeeeeeep-1`. -/
theorem GuessVerificationProgressDouble_count_ulp_drop :
    GuessVerificationProgressDouble ⟨true, Network.MAIN, 1402075021⟩
        (some ⟨536870911, 1402075019⟩) false = some (9007199253622511 / 2 ^ 53) ∧
      GuessVerificationProgressDouble ⟨true, Network.MAIN, 1402075021⟩
        (some ⟨536870912, 1402075019⟩) false = some (9007199253622510 / 2 ^ 53) ∧
      (9007199253622510 / 2 ^ 53 : ℚ) < 9007199253622511 / 2 ^ 53 := by
  decide!

end Checkpoints
